import Mathlib

/-!
Verification of the softmax accelerator control pipeline
(`src/accelerators/catapult_hls/softmax/src/softmax.cpp`).

The three processes `load_input`, `compute_kernel` and `store_output` are
embedded as pure functions producing the observable actions of each process:
DMA descriptors written to the control channels, per-record data transfers,
handshake requests/acknowledges, the `debug` flag and the `acc_done` pulse.
All 32-bit unsigned arithmetic of the source (`uint32_t offset`,
`offset += size`, `size * batch`) is modelled as `Nat` arithmetic reduced
`% 2^32`.  `PLM_SIZE` is a compile-time constant defined in the accelerator
header (not part of the translated file); every definition here is
parametrised by it (`plm`).  "Parking" in a `process_done()` /
`CONFIG_DONE_LOOP` infinite wait is modelled as the end of the finite trace
of observable actions: a parked process performs no further action.
-/

/-- The modulus of `uint32_t` arithmetic, 2^32. -/
def U32MOD : Nat := 2 ^ 32

/-- Configuration record read from `conf_info` (fields `size`, `batch`,
as read in `load_input` / `compute_kernel` / `store_output`). -/
structure conf_info_t where
  size : Nat
  batch : Nat
deriving DecidableEq, Repr

/-- DMA transfer descriptor: `dma_info_t dma_info(offset, size, 32)` has
fields `index` (byte/word offset), `length`, and element width `size`. -/
structure dma_info_t where
  index : Nat
  length : Nat
  size : Nat
deriving DecidableEq, Repr

/-- The per-record inner loop common to `LOAD_DATA_INNER_LOOP` and
`STORE_DATA_INNER_LOOP`:

    for (uint16_t i = 0; i < PLM_SIZE; i++) { if (i >= size) break; body(i); }

`dataLoopIdx size i fuel` is the list of indices `i` for which the body
runs, starting at index `i` with `fuel` loop iterations remaining
(initially `fuel = PLM_SIZE`, `i = 0`). -/
def dataLoopIdx (size : Nat) : Nat → Nat → List Nat
  | _, 0 => []
  | i, fuel + 1 => if size ≤ i then [] else i :: dataLoopIdx size (i + 1) fuel

/-- Indices of the PLM slots written by `LOAD_DATA_INNER_LOOP`
(softmax.cpp lines 112–133): the loop runs `i` from `0` below `PLM_SIZE`
and breaks as soon as `i >= size`. -/
def LOAD_DATA_INNER_LOOP (plm size : Nat) : List Nat :=
  dataLoopIdx size 0 plm

/-- The batch loop of `load_input` (softmax.cpp `LOAD_BATCH_LOOP`,
lines 93–151): each iteration issues `dma_info_t(offset, size, 32)` on
`dma_read_ctrl`, then advances `offset += size` in `uint32_t` arithmetic.
Recursion is on the number of remaining iterations. -/
def loadBatchLoop (size : Nat) : Nat → Nat → List dma_info_t
  | _, 0 => []
  | offset, b + 1 =>
    { index := offset, length := size, size := 32 } ::
      loadBatchLoop size ((offset + size) % U32MOD) b

/-- Observable outcome of the `load_input` process: the `debug` flag, the
descriptors written to `dma_read_ctrl`, the PLM slot indices written per
batch, and the number of `load_compute_handshake()` (`input_ready.req`)
calls. -/
structure LoadResult where
  debug : Nat
  descs : List dma_info_t
  reads : List (List Nat)
  reqs : Nat
deriving DecidableEq, Repr

/-- The `load_input` process (softmax.cpp lines 55–157).  After reset
(`debug = 0`) and configuration, `size >= PLM_SIZE` sets `debug = 1` and
parks in `process_done()` before any DMA traffic; otherwise the batch loop
runs `batch` times, each issuing one read descriptor at the running
offset (starting from `offset = 0`), reading `size` records into the PLM,
and raising one handshake request. -/
def load_input (plm : Nat) (cfg : conf_info_t) : LoadResult :=
  if plm ≤ cfg.size then
    { debug := 1, descs := [], reads := [], reqs := 0 }
  else
    { debug := 0
      descs := loadBatchLoop cfg.size 0 cfg.batch
      reads := List.replicate cfg.batch (LOAD_DATA_INNER_LOOP plm cfg.size)
      reqs := cfg.batch }

/-- Observable outcome of the `compute_kernel` process: the number of
`compute_load_handshake()` (`input_ready.ack`) calls, of invocations of the
`compute<...>` transform, and of `compute_store_handshake()`
(`output_ready.req`) calls. -/
structure ComputeResult where
  acks : Nat
  transformCalls : Nat
  reqs : Nat
deriving DecidableEq, Repr

/-- The `compute_kernel` process (softmax.cpp lines 159–232).  On
`size >= PLM_SIZE` it parks in `process_done()` before the batch loop;
otherwise `COMPUTE_BATCH_LOOP` runs `batch` times, each acknowledging the
load handshake, invoking `compute` once, and requesting the store
handshake. -/
def compute_kernel (plm : Nat) (cfg : conf_info_t) : ComputeResult :=
  if plm ≤ cfg.size then
    { acks := 0, transformCalls := 0, reqs := 0 }
  else
    { acks := cfg.batch, transformCalls := cfg.batch, reqs := cfg.batch }

/-- One observable action of the `store_output` process:
`ack` = `store_compute_handshake()` (`output_ready.ack`),
`desc d` = a descriptor written to `dma_write_ctrl`,
`dataWord w` = a 64-bit word written to `dma_write_chnl`,
`pulse` = the one-tick `acc_done` pulse of `accelerator_done()`. -/
inductive StoreEv where
  | ack : StoreEv
  | desc : dma_info_t → StoreEv
  | dataWord : Nat → StoreEv
  | pulse : StoreEv
deriving DecidableEq, Repr

/-- The loop `STORE_DATA_INNER_LOOP` (softmax.cpp lines 299–318): same loop shape as
the load inner loop; for each index the 64-bit transfer word carries
`0xdeadbeef` in bits 63..32 and the low 32 bits of record `data i` in bits
31..0. -/
def STORE_DATA_INNER_LOOP (plm size : Nat) (data : Nat → Nat) : List Nat :=
  (dataLoopIdx size 0 plm).map (fun i => 0xdeadbeef * U32MOD + data i % U32MOD)

/-- One iteration of `STORE_BATCH_LOOP`: acknowledge the compute
handshake, write `dma_info_t(offset, size, 32)` to `dma_write_ctrl`, then
stream the inner-loop data words. -/
def storeBatchIter (plm size : Nat) (data : Nat → Nat) (offset : Nat) :
    List StoreEv :=
  StoreEv.ack :: StoreEv.desc { index := offset, length := size, size := 32 } ::
    (STORE_DATA_INNER_LOOP plm size data).map StoreEv.dataWord

/-- The batch loop of `store_output` (softmax.cpp `STORE_BATCH_LOOP`,
lines 271–325): `plmOut b i` is the output PLM record `i` produced by the
compute process for batch `b` (as a raw bit pattern); `offset += size`
advances in `uint32_t` arithmetic; recursion is on the remaining
iteration count, `b` is the current batch index. -/
def storeBatchLoop (plm size : Nat) (plmOut : Nat → Nat → Nat) :
    Nat → Nat → Nat → List StoreEv
  | _, _, 0 => []
  | offset, b, n + 1 =>
    storeBatchIter plm size (plmOut b) offset ++
      storeBatchLoop plm size plmOut ((offset + size) % U32MOD) (b + 1) n

/-- The `store_output` process (softmax.cpp lines 234–332).  On
`size >= PLM_SIZE` it calls `accelerator_done()` (one pulse) and parks in
`process_done()`; otherwise the batch loop runs `batch` times starting at
`uint32_t offset = size * batch`, and after the loop `accelerator_done()`
pulses once before `process_done()` parks the process. -/
def store_output (plm : Nat) (cfg : conf_info_t) (plmOut : Nat → Nat → Nat) :
    List StoreEv :=
  if plm ≤ cfg.size then
    [StoreEv.pulse]
  else
    storeBatchLoop plm cfg.size plmOut ((cfg.size * cfg.batch) % U32MOD) 0
        cfg.batch ++
      [StoreEv.pulse]

/-- The descriptors a store trace writes to `dma_write_ctrl`. -/
def storeDescs (tr : List StoreEv) : List dma_info_t :=
  tr.filterMap (fun e => match e with | StoreEv.desc d => some d | _ => none)

/-- The 64-bit words a store trace writes to `dma_write_chnl`. -/
def storeWords (tr : List StoreEv) : List Nat :=
  tr.filterMap (fun e => match e with | StoreEv.dataWord w => some w | _ => none)

/-- The number of `acc_done` pulses in a store trace. -/
def storePulses (tr : List StoreEv) : Nat :=
  tr.count StoreEv.pulse

/-- The number of `output_ready.ack` calls in a store trace. -/
def storeAcks (tr : List StoreEv) : Nat :=
  tr.count StoreEv.ack

/-!
Configuration gate.

The process `config_accelerator` (softmax.cpp lines 30–53) drives the `done` signal:
it writes `done = false`, polls `conf_done` once per tick until it reads
true, writes `done = true`, and then parks in `CONFIG_DONE_LOOP` (which
never writes `done` again).  So at tick `t` the `done` signal is true iff
`conf_done` was read true at some earlier tick. -/

/-- The `done` signal trace produced by `config_accelerator` from the
external `conf_done` trace. -/
def done_trace (conf_done : Nat → Bool) : Nat → Bool
  | 0 => false
  | t + 1 => done_trace conf_done t || conf_done t

/-- The loop of `wait_for_config` (softmax.cpp lines 394–398): starting at tick `t`,
poll the `done` signal once per iteration, waiting one tick while it is
false.  Returns the number of wait iterations performed, or `none` if
`fuel` ticks pass without `done` becoming true.  The loop reads only the
internal `done` flag — it never touches the external `conf_done`
condition. -/
def WAIT_FOR_CONFIG_LOOP (done : Nat → Bool) : Nat → Nat → Option Nat
  | t, 0 => if done t then some 0 else none
  | t, f + 1 =>
    if done t then some 0
    else (WAIT_FOR_CONFIG_LOOP done (t + 1) f).map (· + 1)

/-- The await-configuration operation of each stage: `wait_for_config()`
followed by `conf_info.read()` (softmax.cpp lines 68–69, 171–172,
246–247).  Returns the number of wait iterations and the configuration
value read at the tick the wait ended. -/
def awaitConfiguration (done : Nat → Bool) (conf_info : Nat → conf_info_t)
    (t fuel : Nat) : Option (Nat × conf_info_t) :=
  (WAIT_FOR_CONFIG_LOOP done t fuel).map (fun n => (n, conf_info (t + n)))

/-!
Handshake transition system.

The signals `input_ready` and `output_ready` are single-slot request/acknowledge
handshakes (`load_compute_handshake` / `compute_load_handshake` /
`compute_store_handshake` / `store_compute_handshake`, softmax.cpp lines
377–392).  Modelled from the spec: the `handshake_t` primitive itself is
declared in the accelerator header, not in the translated file; per the
spec it is a single-slot token — `request` asserts the token (blocking
while it is still asserted) and `acknowledge` blocks until the token is
asserted, then clears it.  The three processes are interleaved
arbitrarily; each process contributes the sequence of handshake actions
its code performs. -/

/-- A handshake action: request/acknowledge on the load→compute channel
(`input_ready`) or on the compute→store channel (`output_ready`). -/
inductive HsAct where
  | req1 : HsAct
  | ack1 : HsAct
  | req2 : HsAct
  | ack2 : HsAct
deriving DecidableEq, Repr

/-- Handshake actions of `load_input` in program order: on an invalid
configuration the process parks before the loop; otherwise one
`input_ready.req` per batch iteration (softmax.cpp line 148). -/
def loadHsProg (plm : Nat) (cfg : conf_info_t) : List HsAct :=
  if plm ≤ cfg.size then [] else List.replicate cfg.batch HsAct.req1

/-- Handshake actions of `compute_kernel` in program order: per batch
iteration an `input_ready.ack` (line 195) followed by an
`output_ready.req` (line 222). -/
def computeHsProg (plm : Nat) (cfg : conf_info_t) : List HsAct :=
  if plm ≤ cfg.size then []
  else (List.replicate cfg.batch [HsAct.ack1, HsAct.req2]).flatten

/-- Handshake actions of `store_output` in program order: one
`output_ready.ack` per batch iteration (softmax.cpp line 274). -/
def storeHsProg (plm : Nat) (cfg : conf_info_t) : List HsAct :=
  if plm ≤ cfg.size then [] else List.replicate cfg.batch HsAct.ack2

/-- State of the interleaved handshake system: the remaining programs of
the three processes, the two single-slot tokens (`c1` = `input_ready`,
`c2` = `output_ready`), and history counters of completed requests and
acknowledges per channel. -/
structure HsState where
  lp : List HsAct
  cp : List HsAct
  sp : List HsAct
  c1 : Bool
  c2 : Bool
  r1 : Nat
  a1 : Nat
  r2 : Nat
  a2 : Nat
deriving DecidableEq, Repr

/-- Initial handshake state for a configuration: programs as generated by
the three processes, both tokens clear (reset via `reset_req` /
`reset_ack`), no history. -/
def hsInit (plm : Nat) (cfg : conf_info_t) : HsState :=
  { lp := loadHsProg plm cfg, cp := computeHsProg plm cfg
    sp := storeHsProg plm cfg, c1 := false, c2 := false
    r1 := 0, a1 := 0, r2 := 0, a2 := 0 }

/-- One step of the interleaved handshake system: some process completes
its next handshake action, subject to the single-slot semantics — a
request only completes while the token is clear, an acknowledge only
while it is asserted. -/
inductive HsStep : HsState → HsState → Prop where
  | loadReq (s : HsState) (rest : List HsAct) :
      s.lp = HsAct.req1 :: rest → s.c1 = false →
      HsStep s { s with lp := rest, c1 := true, r1 := s.r1 + 1 }
  | computeAck (s : HsState) (rest : List HsAct) :
      s.cp = HsAct.ack1 :: rest → s.c1 = true →
      HsStep s { s with cp := rest, c1 := false, a1 := s.a1 + 1 }
  | computeReq (s : HsState) (rest : List HsAct) :
      s.cp = HsAct.req2 :: rest → s.c2 = false →
      HsStep s { s with cp := rest, c2 := true, r2 := s.r2 + 1 }
  | storeAck (s : HsState) (rest : List HsAct) :
      s.sp = HsAct.ack2 :: rest → s.c2 = true →
      HsStep s { s with sp := rest, c2 := false, a2 := s.a2 + 1 }

/-- The single-slot channel invariant: the token is asserted exactly when
one request is outstanding, and the completed-action counters never drift
further apart than one. -/
def HsInv (s : HsState) : Prop :=
  s.r1 = s.a1 + (if s.c1 then 1 else 0) ∧ s.r2 = s.a2 + (if s.c2 then 1 else 0)

/-- Strict increase of a list of offsets. -/
def StrictIncr (l : List Nat) : Prop :=
  l.Pairwise (· < ·)

/-- Two descriptors address non-overlapping intervals
`[index, index+length)`. -/
def DescDisjoint (d e : dma_info_t) : Prop :=
  d.index + d.length ≤ e.index ∨ e.index + e.length ≤ d.index

/-- A descriptor list is non-overlapping when its intervals are pairwise
disjoint. -/
def NonOverlapping (l : List dma_info_t) : Prop :=
  l.Pairwise DescDisjoint

instance : DecidableRel DescDisjoint :=
  fun _ _ => inferInstanceAs (Decidable (_ ∨ _))

instance (l : List Nat) : Decidable (StrictIncr l) :=
  inferInstanceAs (Decidable (List.Pairwise _ l))

instance (l : List dma_info_t) : Decidable (NonOverlapping l) :=
  inferInstanceAs (Decidable (List.Pairwise _ l))

-- Closed form of the inner loop: the body runs exactly for
-- `i = 0, 1, ..., min size PLM_SIZE - 1`.
theorem dataLoopIdx_eq_range' (size : Nat) :
    ∀ fuel i, dataLoopIdx size i fuel = List.range' i (min (size - i) fuel) := by
  intro fuel
  induction fuel with
  | zero => intro i; simp [dataLoopIdx]
  | succ n ih =>
    intro i
    by_cases h : size ≤ i
    · simp [dataLoopIdx, h, Nat.sub_eq_zero_of_le h]
    · push_neg at h
      have hs : size - i = (size - (i + 1)) + 1 := by omega
      rw [dataLoopIdx, if_neg (by omega), ih (i + 1), hs, Nat.succ_min_succ,
        List.range'_succ]

theorem LOAD_DATA_INNER_LOOP_eq_range (plm size : Nat) :
    LOAD_DATA_INNER_LOOP plm size = List.range (min size plm) := by
  rw [LOAD_DATA_INNER_LOOP, dataLoopIdx_eq_range' size plm 0, Nat.sub_zero,
    List.range_eq_range']

-- Closed form of the load batch loop: descriptor `b` (0-based) sits at
-- offset `(offset0 + b*size) % 2^32` with length `size`, width 32.
theorem loadBatchLoop_eq_map (size : Nat) :
    ∀ n offset, offset < U32MOD →
      loadBatchLoop size offset n =
        (List.range n).map
          (fun b => { index := (offset + b * size) % U32MOD, length := size,
                      size := 32 }) := by
  intro n
  induction n with
  | zero => intro offset _; simp [loadBatchLoop]
  | succ m ih =>
    intro offset hoff
    rw [loadBatchLoop, ih ((offset + size) % U32MOD) (Nat.mod_lt _ (by decide)),
      List.range_succ_eq_map, List.map_cons, List.map_map]
    congr 1
    · simp [Nat.mod_eq_of_lt hoff]
    · refine List.map_congr_left (fun b _ => ?_)
      simp only [Function.comp_apply, dma_info_t.mk.injEq, and_true]
      rw [Nat.mod_add_mod]
      congr 1
      rw [Nat.succ_mul]
      omega

-- Projections of store traces distribute over concatenation.
theorem storeDescs_append (l1 l2 : List StoreEv) :
    storeDescs (l1 ++ l2) = storeDescs l1 ++ storeDescs l2 :=
  List.filterMap_append _ _ _

theorem storeWords_append (l1 l2 : List StoreEv) :
    storeWords (l1 ++ l2) = storeWords l1 ++ storeWords l2 :=
  List.filterMap_append _ _ _

theorem storeAcks_append (l1 l2 : List StoreEv) :
    storeAcks (l1 ++ l2) = storeAcks l1 + storeAcks l2 :=
  List.count_append _ _ _

theorem storePulses_append (l1 l2 : List StoreEv) :
    storePulses (l1 ++ l2) = storePulses l1 + storePulses l2 :=
  List.count_append _ _ _

-- Projections of a single batch iteration.
theorem storeDescs_iter (plm size : Nat) (data : Nat → Nat) (offset : Nat) :
    storeDescs (storeBatchIter plm size data offset) =
      [{ index := offset, length := size, size := 32 }] := by
  simp [storeBatchIter, storeDescs, List.filterMap_cons, List.filterMap_map,
    Function.comp_def]

theorem storeWords_iter (plm size : Nat) (data : Nat → Nat) (offset : Nat) :
    storeWords (storeBatchIter plm size data offset) =
      STORE_DATA_INNER_LOOP plm size data := by
  simp [storeBatchIter, storeWords, List.filterMap_cons, List.filterMap_map,
    Function.comp_def]

theorem storeAcks_iter (plm size : Nat) (data : Nat → Nat) (offset : Nat) :
    storeAcks (storeBatchIter plm size data offset) = 1 := by
  simp [storeBatchIter, storeAcks, List.count_cons]
  rw [List.count_eq_zero_of_not_mem (by simp)]

theorem storePulses_iter (plm size : Nat) (data : Nat → Nat) (offset : Nat) :
    storePulses (storeBatchIter plm size data offset) = 0 := by
  simp [storeBatchIter, storePulses, List.count_cons]
  exact List.count_eq_zero_of_not_mem (by simp)

-- The descriptor stream of the store batch loop has exactly the shape of
-- the load batch loop's: same running-offset recurrence.
theorem storeDescs_batchLoop (plm size : Nat) (plmOut : Nat → Nat → Nat) :
    ∀ n offset b, storeDescs (storeBatchLoop plm size plmOut offset b n) =
      loadBatchLoop size offset n := by
  intro n
  induction n with
  | zero => intro offset b; simp [storeBatchLoop, loadBatchLoop, storeDescs]
  | succ m ih =>
    intro offset b
    rw [storeBatchLoop, loadBatchLoop, storeDescs_append, storeDescs_iter,
      ih ((offset + size) % U32MOD) (b + 1)]
    rfl

theorem storeWords_batchLoop (plm size : Nat) (plmOut : Nat → Nat → Nat) :
    ∀ n offset b, storeWords (storeBatchLoop plm size plmOut offset b n) =
      ((List.range' b n).map
        (fun k => STORE_DATA_INNER_LOOP plm size (plmOut k))).flatten := by
  intro n
  induction n with
  | zero => intro offset b; simp [storeBatchLoop, storeWords]
  | succ m ih =>
    intro offset b
    rw [storeBatchLoop, storeWords_append, storeWords_iter,
      ih ((offset + size) % U32MOD) (b + 1), List.range'_succ, List.map_cons,
      List.flatten_cons]

theorem storeAcks_batchLoop (plm size : Nat) (plmOut : Nat → Nat → Nat) :
    ∀ n offset b, storeAcks (storeBatchLoop plm size plmOut offset b n) = n := by
  intro n
  induction n with
  | zero => intro offset b; simp [storeBatchLoop, storeAcks]
  | succ m ih =>
    intro offset b
    rw [storeBatchLoop, storeAcks_append, storeAcks_iter,
      ih ((offset + size) % U32MOD) (b + 1)]
    omega

theorem storePulses_batchLoop (plm size : Nat) (plmOut : Nat → Nat → Nat) :
    ∀ n offset b, storePulses (storeBatchLoop plm size plmOut offset b n) = 0 := by
  intro n
  induction n with
  | zero => intro offset b; simp [storeBatchLoop, storePulses]
  | succ m ih =>
    intro offset b
    rw [storeBatchLoop, storePulses_append, storePulses_iter,
      ih ((offset + size) % U32MOD) (b + 1)]

-- Once `config_accelerator` has raised `done`, it stays raised: the
-- process parks in `CONFIG_DONE_LOOP` and never writes `done` again.
theorem done_trace_mono (conf_done : Nat → Bool) :
    ∀ t t', t ≤ t' → done_trace conf_done t = true →
      done_trace conf_done t' = true := by
  intro t t' h ht
  induction t' with
  | zero =>
    have : t = 0 := Nat.le_zero.mp h
    exact this ▸ ht
  | succ u ih =>
    rcases Nat.lt_or_ge t (u + 1) with hlt | hge
    · have := ih (Nat.lt_succ_iff.mp hlt)
      simp [done_trace, this]
    · have : t = u + 1 := Nat.le_antisymm h hge
      exact this ▸ ht

-- A wait loop started while `done` is already true performs no iteration.
theorem WAIT_FOR_CONFIG_LOOP_done (done : Nat → Bool) (t fuel : Nat)
    (h : done t = true) : WAIT_FOR_CONFIG_LOOP done t fuel = some 0 := by
  cases fuel with
  | zero => simp [WAIT_FOR_CONFIG_LOOP, h]
  | succ f => simp [WAIT_FOR_CONFIG_LOOP, h]

-- The handshake invariant holds initially and is preserved by every step.
theorem hsInv_init (plm : Nat) (cfg : conf_info_t) : HsInv (hsInit plm cfg) := by
  simp [HsInv, hsInit]

theorem hsInv_step {s s' : HsState} (hstep : HsStep s s') (hinv : HsInv s) :
    HsInv s' := by
  obtain ⟨h1, h2⟩ := hinv
  cases hstep with
  | loadReq rest hp hc => simp_all [HsInv]
  | computeAck rest hp hc => simp_all [HsInv]
  | computeReq rest hp hc => simp_all [HsInv]
  | storeAck rest hp hc => simp_all [HsInv]

theorem hsInv_reachable {plm : Nat} {cfg : conf_info_t} {s : HsState}
    (h : Relation.ReflTransGen HsStep (hsInit plm cfg) s) : HsInv s := by
  induction h with
  | refl => exact hsInv_init plm cfg
  | tail _ hstep ih => exact hsInv_step hstep ih

-- On the valid path, the load process's descriptors are those of the
-- batch loop.
theorem load_input_descs_valid (plm : Nat) (cfg : conf_info_t)
    (hvalid : cfg.size < plm) :
    (load_input plm cfg).descs = loadBatchLoop cfg.size 0 cfg.batch := by
  rw [load_input, if_neg (Nat.not_le.mpr hvalid)]

-- For batch indices below `batch`, no-wrap bounds kill the `% 2^32`.
theorem offset_no_wrap {size batch : Nat} (hpos : 0 < size)
    (hnw : size * batch ≤ U32MOD) {b : Nat} (hb : b < batch) :
    b * size < U32MOD := by
  have h1 : (b + 1) * size ≤ batch * size :=
    Nat.mul_le_mul_right size hb
  have h2 : batch * size = size * batch := Nat.mul_comm batch size
  have h3 : b * size + size = (b + 1) * size := (Nat.succ_mul b size).symm
  omega

/-- C1, counterexample: with `ChunkCapacity = 8`, the configuration
`chunkSize = 0`, `batchCount = 2` is valid (`0 <= 0 < 8`), yet the two
read descriptors the Load Stage issues both sit at offset `0` — the
offset sequence `[0, 0]` is not strictly increasing. -/
theorem load_offsets_zero_size_not_strictIncr :
    0 < 8 ∧
    (load_input 8 { size := 0, batch := 2 }).descs.map dma_info_t.index =
      [0, 0] ∧
    ¬ StrictIncr
      ((load_input 8 { size := 0, batch := 2 }).descs.map dma_info_t.index) := by
  refine ⟨by decide, by decide, ?_⟩
  intro h
  rw [show (load_input 8 { size := 0, batch := 2 }).descs.map dma_info_t.index
      = [0, 0] by decide] at h
  exact absurd h (by decide)

/-- C1 (amended): For every configuration with `chunkSize < ChunkCapacity`
and any `batchCount`, the Load Stage issues exactly `batchCount` read
descriptors, each of length `chunkSize`, at offsets
`0, chunkSize, 2*chunkSize, ...` reduced `% 2^32`; whenever additionally
`chunkSize > 0` and `chunkSize * batchCount ≤ 2^32` (so the running
offset cannot repeat or wrap), the offset sequence is strictly
increasing and the descriptors are non-overlapping. -/
theorem load_read_descriptor_sequence (plm : Nat) (cfg : conf_info_t)
    (hvalid : cfg.size < plm) :
    (load_input plm cfg).descs.length = cfg.batch ∧
    (∀ d ∈ (load_input plm cfg).descs, d.length = cfg.size) ∧
    (load_input plm cfg).descs.map dma_info_t.index =
      (List.range cfg.batch).map (fun b => (b * cfg.size) % U32MOD) ∧
    (0 < cfg.size → cfg.size * cfg.batch ≤ U32MOD →
      StrictIncr ((load_input plm cfg).descs.map dma_info_t.index) ∧
      NonOverlapping (load_input plm cfg).descs) := by
  rw [load_input_descs_valid plm cfg hvalid,
    loadBatchLoop_eq_map cfg.size cfg.batch 0 (by decide)]
  refine ⟨by simp, ?_, ?_, ?_⟩
  · intro d hd
    obtain ⟨b, _, rfl⟩ := List.mem_map.mp hd
    rfl
  · rw [List.map_map]
    exact List.map_congr_left (fun b _ => by simp)
  · intro hpos hnw
    constructor
    · rw [StrictIncr, List.map_map, List.pairwise_map]
      refine (List.pairwise_lt_range cfg.batch).imp_of_mem ?_
      intro a b ha hb hab
      have ha' := offset_no_wrap hpos hnw (List.mem_range.mp ha)
      have hb' := offset_no_wrap hpos hnw (List.mem_range.mp hb)
      simpa [Nat.mod_eq_of_lt ha', Nat.mod_eq_of_lt hb'] using
        mul_lt_mul_of_pos_right hab hpos
    · rw [NonOverlapping, List.pairwise_map]
      refine (List.pairwise_lt_range cfg.batch).imp_of_mem ?_
      intro a b ha hb hab
      have ha' := offset_no_wrap hpos hnw (List.mem_range.mp ha)
      have hb' := offset_no_wrap hpos hnw (List.mem_range.mp hb)
      left
      simp only [Nat.zero_add, Nat.mod_eq_of_lt ha', Nat.mod_eq_of_lt hb']
      have : (a + 1) * cfg.size ≤ b * cfg.size :=
        Nat.mul_le_mul_right cfg.size hab
      have h3 : a * cfg.size + cfg.size = (a + 1) * cfg.size :=
        (Nat.succ_mul a cfg.size).symm
      omega

/-- Witness for C1 at the spec's end-to-end scenario
(`ChunkCapacity = 8`, `chunkSize = 4`, `batchCount = 3`). -/
theorem load_read_descriptor_sequence_witness :
    (load_input 8 { size := 4, batch := 3 }).descs.length = 3 ∧
    (∀ d ∈ (load_input 8 { size := 4, batch := 3 }).descs, d.length = 4) ∧
    (load_input 8 { size := 4, batch := 3 }).descs.map dma_info_t.index =
      (List.range 3).map (fun b => (b * 4) % U32MOD) ∧
    (0 < 4 → 4 * 3 ≤ U32MOD →
      StrictIncr
        ((load_input 8 { size := 4, batch := 3 }).descs.map dma_info_t.index) ∧
      NonOverlapping (load_input 8 { size := 4, batch := 3 }).descs) :=
  load_read_descriptor_sequence 8 { size := 4, batch := 3 } (by decide)

-- On the valid path, the store descriptor stream follows the same
-- recurrence as the load one, started at `(size * batch) % 2^32`.
theorem storeDescs_store_output_valid (plm : Nat) (cfg : conf_info_t)
    (plmOut : Nat → Nat → Nat) (hvalid : cfg.size < plm) :
    storeDescs (store_output plm cfg plmOut) =
      loadBatchLoop cfg.size ((cfg.size * cfg.batch) % U32MOD) cfg.batch := by
  rw [store_output, if_neg (Nat.not_le.mpr hvalid), storeDescs_append,
    storeDescs_batchLoop]
  simp [storeDescs]

/-- C3, counterexample: with `ChunkCapacity = 8`, the valid configuration
`chunkSize = 0`, `batchCount = 2` makes the Store Stage issue two write
descriptors both at offset `0` (`chunkSize * batchCount = 0`) — the
offset sequence `[0, 0]` is not strictly increasing. -/
theorem store_offsets_zero_size_not_strictIncr :
    0 < 8 ∧
    (storeDescs (store_output 8 { size := 0, batch := 2 } (fun _ _ => 0))).map
        dma_info_t.index = [0, 0] ∧
    ¬ StrictIncr
      ((storeDescs (store_output 8 { size := 0, batch := 2 }
        (fun _ _ => 0))).map dma_info_t.index) := by
  refine ⟨by decide, by decide, ?_⟩
  intro h
  rw [show (storeDescs (store_output 8 { size := 0, batch := 2 }
      (fun _ _ => 0))).map dma_info_t.index = [0, 0] by decide] at h
  exact absurd h (by decide)

/-- C3 (amended): For every configuration with `chunkSize < ChunkCapacity`
and any `batchCount`, the Store Stage issues exactly `batchCount` write
descriptors, each of length `chunkSize`, at offsets starting from
`chunkSize * batchCount` and advancing by `chunkSize`, all reduced
`% 2^32`; whenever additionally `chunkSize > 0` and
`2 * (chunkSize * batchCount) ≤ 2^32` (so no offset repeats or wraps),
the offset sequence is strictly increasing and the descriptors are
non-overlapping. -/
theorem store_write_descriptor_sequence (plm : Nat) (cfg : conf_info_t)
    (plmOut : Nat → Nat → Nat) (hvalid : cfg.size < plm) :
    (storeDescs (store_output plm cfg plmOut)).length = cfg.batch ∧
    (∀ d ∈ storeDescs (store_output plm cfg plmOut), d.length = cfg.size) ∧
    (storeDescs (store_output plm cfg plmOut)).map dma_info_t.index =
      (List.range cfg.batch).map
        (fun b => (cfg.size * cfg.batch + b * cfg.size) % U32MOD) ∧
    (0 < cfg.size → 2 * (cfg.size * cfg.batch) ≤ U32MOD →
      StrictIncr
        ((storeDescs (store_output plm cfg plmOut)).map dma_info_t.index) ∧
      NonOverlapping (storeDescs (store_output plm cfg plmOut))) := by
  have hlt : (cfg.size * cfg.batch) % U32MOD < U32MOD :=
    Nat.mod_lt _ (by decide)
  have hkey : ∀ b, 0 < cfg.size → 2 * (cfg.size * cfg.batch) ≤ U32MOD →
      b < cfg.batch → cfg.size * cfg.batch + b * cfg.size < U32MOD := by
    intro b hpos hnw hb
    have h1 : (b + 1) * cfg.size ≤ cfg.batch * cfg.size :=
      Nat.mul_le_mul_right cfg.size hb
    have h2 : cfg.batch * cfg.size = cfg.size * cfg.batch :=
      Nat.mul_comm cfg.batch cfg.size
    have h3 : b * cfg.size + cfg.size = (b + 1) * cfg.size :=
      (Nat.succ_mul b cfg.size).symm
    omega
  rw [storeDescs_store_output_valid plm cfg plmOut hvalid,
    loadBatchLoop_eq_map cfg.size cfg.batch _ hlt]
  refine ⟨by simp, ?_, ?_, ?_⟩
  · intro d hd
    obtain ⟨b, _, rfl⟩ := List.mem_map.mp hd
    rfl
  · rw [List.map_map]
    refine List.map_congr_left (fun b _ => ?_)
    simp only [Function.comp_apply]
    exact Nat.mod_add_mod _ _ _
  · intro hpos hnw
    have hmod : ∀ b, b < cfg.batch →
        ((cfg.size * cfg.batch) % U32MOD + b * cfg.size) % U32MOD =
          cfg.size * cfg.batch + b * cfg.size := by
      intro b hb
      rw [Nat.mod_add_mod]
      exact Nat.mod_eq_of_lt (hkey b hpos hnw hb)
    constructor
    · rw [StrictIncr, List.map_map, List.pairwise_map]
      refine (List.pairwise_lt_range cfg.batch).imp_of_mem ?_
      intro a b ha hb hab
      simp only [Function.comp_apply]
      rw [hmod a (List.mem_range.mp ha), hmod b (List.mem_range.mp hb)]
      have := mul_lt_mul_of_pos_right hab hpos
      omega
    · rw [NonOverlapping, List.pairwise_map]
      refine (List.pairwise_lt_range cfg.batch).imp_of_mem ?_
      intro a b ha hb hab
      left
      simp only
      rw [hmod a (List.mem_range.mp ha), hmod b (List.mem_range.mp hb)]
      have h1 : (a + 1) * cfg.size ≤ b * cfg.size :=
        Nat.mul_le_mul_right cfg.size hab
      have h3 : a * cfg.size + cfg.size = (a + 1) * cfg.size :=
        (Nat.succ_mul a cfg.size).symm
      omega

/-- Witness for C3 at the spec's end-to-end scenario: write offsets
start at `4 * 3 = 12`. -/
theorem store_write_descriptor_sequence_witness :
    (storeDescs (store_output 8 { size := 4, batch := 3 }
      (fun _ _ => 0))).length = 3 ∧
    (∀ d ∈ storeDescs (store_output 8 { size := 4, batch := 3 }
      (fun _ _ => 0)), d.length = 4) ∧
    (storeDescs (store_output 8 { size := 4, batch := 3 }
        (fun _ _ => 0))).map dma_info_t.index =
      (List.range 3).map (fun b => (4 * 3 + b * 4) % U32MOD) ∧
    (0 < 4 → 2 * (4 * 3) ≤ U32MOD →
      StrictIncr ((storeDescs (store_output 8 { size := 4, batch := 3 }
        (fun _ _ => 0))).map dma_info_t.index) ∧
      NonOverlapping (storeDescs (store_output 8 { size := 4, batch := 3 }
        (fun _ _ => 0)))) :=
  store_write_descriptor_sequence 8 { size := 4, batch := 3 } (fun _ _ => 0)
    (by decide)

/-- C2: On an invalid configuration (`size >= PLM_SIZE`), the Load Stage
sets `debug = 1` and parks with zero read descriptors and zero handshake
requests, the Transform Stage parks with zero transform invocations, and
the Store Stage pulses `acc_done` exactly once, issues zero write
descriptors, and parks. -/
theorem invalid_config_all_stages_park (plm : Nat) (cfg : conf_info_t)
    (plmOut : Nat → Nat → Nat) (hinv : plm ≤ cfg.size) :
    load_input plm cfg = { debug := 1, descs := [], reads := [], reqs := 0 } ∧
    compute_kernel plm cfg = { acks := 0, transformCalls := 0, reqs := 0 } ∧
    store_output plm cfg plmOut = [StoreEv.pulse] ∧
    storePulses (store_output plm cfg plmOut) = 1 ∧
    storeDescs (store_output plm cfg plmOut) = [] := by
  have h1 : load_input plm cfg =
      { debug := 1, descs := [], reads := [], reqs := 0 } := by
    rw [load_input, if_pos hinv]
  have h2 : compute_kernel plm cfg =
      { acks := 0, transformCalls := 0, reqs := 0 } := by
    rw [compute_kernel, if_pos hinv]
  have h3 : store_output plm cfg plmOut = [StoreEv.pulse] := by
    rw [store_output, if_pos hinv]
  refine ⟨h1, h2, h3, ?_, ?_⟩
  · rw [h3]; rfl
  · rw [h3]; rfl

/-- Witness for C2 at `ChunkCapacity = 8`, `chunkSize = 8`,
`batchCount = 5`. -/
theorem invalid_config_all_stages_park_witness :
    load_input 8 { size := 8, batch := 5 } =
      { debug := 1, descs := [], reads := [], reqs := 0 } ∧
    compute_kernel 8 { size := 8, batch := 5 } =
      { acks := 0, transformCalls := 0, reqs := 0 } ∧
    store_output 8 { size := 8, batch := 5 } (fun _ _ => 0) =
      [StoreEv.pulse] ∧
    storePulses (store_output 8 { size := 8, batch := 5 } (fun _ _ => 0)) = 1 ∧
    storeDescs (store_output 8 { size := 8, batch := 5 } (fun _ _ => 0)) = [] :=
  invalid_config_all_stages_park 8 { size := 8, batch := 5 } (fun _ _ => 0)
    (by decide)

/-- C6: On a valid configuration with `batchCount = 0`, no handshake
request is ever issued on either channel (the load and compute processes
perform zero `req` calls and their handshake programs are empty), yet the
Store Stage still pulses `acc_done` exactly once. -/
theorem zero_batches_no_requests_still_completes (plm : Nat)
    (cfg : conf_info_t) (plmOut : Nat → Nat → Nat) (hvalid : cfg.size < plm)
    (hzero : cfg.batch = 0) :
    (load_input plm cfg).reqs = 0 ∧
    (compute_kernel plm cfg).reqs = 0 ∧
    loadHsProg plm cfg = [] ∧
    computeHsProg plm cfg = [] ∧
    storeHsProg plm cfg = [] ∧
    storePulses (store_output plm cfg plmOut) = 1 := by
  have hn := Nat.not_le.mpr hvalid
  refine ⟨?_, ?_, ?_, ?_, ?_, ?_⟩
  · rw [load_input, if_neg hn]; exact hzero
  · rw [compute_kernel, if_neg hn]; exact hzero
  · rw [loadHsProg, if_neg hn, hzero]; rfl
  · rw [computeHsProg, if_neg hn, hzero]; rfl
  · rw [storeHsProg, if_neg hn, hzero]; rfl
  · rw [store_output, if_neg hn, hzero, storePulses_append,
      storePulses_batchLoop]
    rfl

/-- Witness for C6 at `ChunkCapacity = 8`, `chunkSize = 4`,
`batchCount = 0`. -/
theorem zero_batches_no_requests_still_completes_witness :
    (load_input 8 { size := 4, batch := 0 }).reqs = 0 ∧
    (compute_kernel 8 { size := 4, batch := 0 }).reqs = 0 ∧
    loadHsProg 8 { size := 4, batch := 0 } = [] ∧
    computeHsProg 8 { size := 4, batch := 0 } = [] ∧
    storeHsProg 8 { size := 4, batch := 0 } = [] ∧
    storePulses (store_output 8 { size := 4, batch := 0 } (fun _ _ => 0)) = 1 :=
  zero_batches_no_requests_still_completes 8 { size := 4, batch := 0 }
    (fun _ _ => 0) (by decide) rfl

/-- C7: On the valid path the Store Stage raises `acc_done` exactly once,
as the last observable action of its trace — after all `batchCount`
batches (one `output_ready.ack` per batch) — and the trace ends there:
the process parks and the signal is never raised again. -/
theorem completion_pulse_once_after_all_batches (plm : Nat)
    (cfg : conf_info_t) (plmOut : Nat → Nat → Nat) (hvalid : cfg.size < plm) :
    storePulses (store_output plm cfg plmOut) = 1 ∧
    (store_output plm cfg plmOut).getLast? = some StoreEv.pulse ∧
    storeAcks (store_output plm cfg plmOut) = cfg.batch := by
  have hn := Nat.not_le.mpr hvalid
  refine ⟨?_, ?_, ?_⟩
  · rw [store_output, if_neg hn, storePulses_append, storePulses_batchLoop]
    rfl
  · rw [store_output, if_neg hn]
    exact List.getLast?_concat _
  · rw [store_output, if_neg hn, storeAcks_append, storeAcks_batchLoop]
    rfl

/-- Witness for C7 at the spec's end-to-end scenario. -/
theorem completion_pulse_once_after_all_batches_witness :
    storePulses (store_output 8 { size := 4, batch := 3 } (fun _ _ => 0)) = 1 ∧
    (store_output 8 { size := 4, batch := 3 }
      (fun _ _ => 0)).getLast? = some StoreEv.pulse ∧
    storeAcks (store_output 8 { size := 4, batch := 3 } (fun _ _ => 0)) = 3 :=
  completion_pulse_once_after_all_batches 8 { size := 4, batch := 3 }
    (fun _ _ => 0) (by decide)

/-- C8: On the valid path, the words the Store Stage writes to
`dma_write_chnl` are, batch by batch and in order, exactly the first
`chunkSize` records of the output chunk buffer, each 64-bit word carrying
the record's low 32 bits in bits 31..0 and the constant `0xdeadbeef` in
bits 63..32. -/
theorem store_words_first_size_records_with_marker (plm : Nat)
    (cfg : conf_info_t) (plmOut : Nat → Nat → Nat) (hvalid : cfg.size < plm) :
    storeWords (store_output plm cfg plmOut) =
      ((List.range cfg.batch).map
        (fun b => (List.range cfg.size).map
          (fun i => 0xdeadbeef * U32MOD + plmOut b i % U32MOD))).flatten := by
  have hn := Nat.not_le.mpr hvalid
  have hinner : ∀ b : Nat, STORE_DATA_INNER_LOOP plm cfg.size (plmOut b) =
      (List.range cfg.size).map
        (fun i => 0xdeadbeef * U32MOD + plmOut b i % U32MOD) := by
    intro b
    rw [STORE_DATA_INNER_LOOP, dataLoopIdx_eq_range' cfg.size plm 0,
      Nat.sub_zero, Nat.min_eq_left (Nat.le_of_lt hvalid),
      ← List.range_eq_range']
  rw [store_output, if_neg hn, storeWords_append, storeWords_batchLoop,
    ← List.range_eq_range']
  have h2 : storeWords [StoreEv.pulse] = [] := rfl
  rw [h2, List.append_nil]
  exact congrArg _ (List.map_congr_left (fun b _ => hinner b))

/-- Witness for C8 at `ChunkCapacity = 8`, `chunkSize = 2`,
`batchCount = 2`, output record `i` of batch `b` being `100*b + i`. -/
theorem store_words_first_size_records_with_marker_witness :
    storeWords (store_output 8 { size := 2, batch := 2 }
      (fun b i => 100 * b + i)) =
      ((List.range 2).map
        (fun b => (List.range 2).map
          (fun i => 0xdeadbeef * U32MOD + (100 * b + i) % U32MOD))).flatten :=
  store_words_first_size_records_with_marker 8 { size := 2, batch := 2 }
    (fun b i => 100 * b + i) (by decide)

/-- C9: All descriptor-offset arithmetic is 32-bit modular: on the valid
path the `b`-th read descriptor sits at `(b * chunkSize) % 2^32` (the
running sum `offset += chunkSize` wraps), the `b`-th write descriptor at
`(chunkSize * batchCount + b * chunkSize) % 2^32` (the initial store
offset `chunkSize * batchCount` is computed `% 2^32`), and no
configuration is rejected: both stages still issue all `batchCount`
descriptors even when these quantities exceed `2^32 - 1` and wrap. -/
theorem descriptor_offsets_u32_modular (plm : Nat) (cfg : conf_info_t)
    (plmOut : Nat → Nat → Nat) (hvalid : cfg.size < plm) :
    (load_input plm cfg).descs.map dma_info_t.index =
      (List.range cfg.batch).map (fun b => (b * cfg.size) % U32MOD) ∧
    (storeDescs (store_output plm cfg plmOut)).map dma_info_t.index =
      (List.range cfg.batch).map
        (fun b => (cfg.size * cfg.batch + b * cfg.size) % U32MOD) ∧
    (load_input plm cfg).descs.length = cfg.batch ∧
    (storeDescs (store_output plm cfg plmOut)).length = cfg.batch := by
  rw [load_input_descs_valid plm cfg hvalid,
    storeDescs_store_output_valid plm cfg plmOut hvalid,
    loadBatchLoop_eq_map cfg.size cfg.batch 0 (by decide),
    loadBatchLoop_eq_map cfg.size cfg.batch _ (Nat.mod_lt _ (by decide))]
  refine ⟨?_, ?_, by simp, by simp⟩
  · rw [List.map_map]
    exact List.map_congr_left (fun b _ => by simp)
  · rw [List.map_map]
    refine List.map_congr_left (fun b _ => ?_)
    simp only [Function.comp_apply]
    exact Nat.mod_add_mod _ _ _

/-- Witness for C9, at a configuration whose offsets really wrap:
`ChunkCapacity = 2^31 + 1`, `chunkSize = 2^31`, `batchCount = 3`.  The
three read descriptors sit at offsets `0, 2^31, 0` — the running sum
wrapped around `2^32` silently. -/
theorem descriptor_offsets_u32_modular_witness :
    ((load_input 2147483649 { size := 2147483648, batch := 3 }).descs.map
        dma_info_t.index =
      (List.range 3).map (fun b => (b * 2147483648) % U32MOD) ∧
    (storeDescs (store_output 2147483649 { size := 2147483648, batch := 3 }
        (fun _ _ => 0))).map dma_info_t.index =
      (List.range 3).map
        (fun b => (2147483648 * 3 + b * 2147483648) % U32MOD) ∧
    (load_input 2147483649 { size := 2147483648, batch := 3 }).descs.length =
      3 ∧
    (storeDescs (store_output 2147483649 { size := 2147483648, batch := 3 }
      (fun _ _ => 0))).length = 3) ∧
    (load_input 2147483649 { size := 2147483648, batch := 3 }).descs.map
      dma_info_t.index = [0, 2147483648, 0] :=
  ⟨descriptor_offsets_u32_modular 2147483649
    { size := 2147483648, batch := 3 } (fun _ _ => 0) (by decide), by decide⟩

/-- C10: In the per-record inner loops of Load and Store, the index is
checked against `size` inside a loop bounded by `PLM_SIZE`, so for every
`size` — including `size ≥ PLM_SIZE` — every accessed chunk-buffer slot
has index below both `PLM_SIZE` and `size`, and exactly
`min size PLM_SIZE` records are transferred per batch. -/
theorem inner_loops_never_exceed_plm (plm size : Nat) (data : Nat → Nat) :
    (∀ i ∈ LOAD_DATA_INNER_LOOP plm size, i < plm ∧ i < size) ∧
    (LOAD_DATA_INNER_LOOP plm size).length = min size plm ∧
    (STORE_DATA_INNER_LOOP plm size data).length = min size plm := by
  have hidx : dataLoopIdx size 0 plm = List.range' 0 (min size plm) := by
    rw [dataLoopIdx_eq_range' size plm 0, Nat.sub_zero]
  refine ⟨?_, ?_, ?_⟩
  · intro i hi
    rw [LOAD_DATA_INNER_LOOP, hidx] at hi
    have := List.mem_range'.mp hi
    omega
  · rw [LOAD_DATA_INNER_LOOP, hidx, List.length_range']
  · rw [STORE_DATA_INNER_LOOP, List.length_map, hidx, List.length_range']

/-- Witness for C10 at `PLM_SIZE = 8` with `size = 12 > PLM_SIZE`: only
`min 12 8 = 8` slots are touched, all below 8. -/
theorem inner_loops_never_exceed_plm_witness :
    (∀ i ∈ LOAD_DATA_INNER_LOOP 8 12, i < 8 ∧ i < 12) ∧
    (LOAD_DATA_INNER_LOOP 8 12).length = min 12 8 ∧
    (STORE_DATA_INNER_LOOP 8 12 (fun i => i)).length = min 12 8 :=
  inner_loops_never_exceed_plm 8 12 (fun i => i)

/-- C4: In every execution — every state reachable under arbitrary
interleaving of the three processes from the initial state of any
configuration — each of the two handshake channels satisfies: every
completed acknowledge was preceded by a then-unmatched request
(`acks ≤ reqs`, and an acknowledge only fires while the token is
asserted, i.e. while `reqs = acks + 1`), and a producer never completes a
second request before its previous one was acknowledged
(`reqs ≤ acks + 1`): a FIFO of depth 1 per boundary. -/
theorem handshake_channel_discipline (plm : Nat) (cfg : conf_info_t)
    (s : HsState) (h : Relation.ReflTransGen HsStep (hsInit plm cfg) s) :
    HsInv s ∧
    s.a1 ≤ s.r1 ∧ s.r1 ≤ s.a1 + 1 ∧ s.a2 ≤ s.r2 ∧ s.r2 ≤ s.a2 + 1 := by
  have hinv := hsInv_reachable h
  obtain ⟨h1, h2⟩ := hinv
  refine ⟨⟨h1, h2⟩, ?_, ?_, ?_, ?_⟩ <;>
    cases hc1 : s.c1 <;> cases hc2 : s.c2 <;> simp [hc1, hc2] at h1 h2 <;>
      omega

/-- Witness for C4: the initial state of the end-to-end scenario is
reachable (empty interleaving) and satisfies the discipline. -/
theorem handshake_channel_discipline_witness :
    HsInv (hsInit 8 { size := 4, batch := 3 }) ∧
    (hsInit 8 { size := 4, batch := 3 }).a1 ≤
      (hsInit 8 { size := 4, batch := 3 }).r1 ∧
    (hsInit 8 { size := 4, batch := 3 }).r1 ≤
      (hsInit 8 { size := 4, batch := 3 }).a1 + 1 ∧
    (hsInit 8 { size := 4, batch := 3 }).a2 ≤
      (hsInit 8 { size := 4, batch := 3 }).r2 ∧
    (hsInit 8 { size := 4, batch := 3 }).r2 ≤
      (hsInit 8 { size := 4, batch := 3 }).a2 + 1 :=
  handshake_channel_discipline 8 { size := 4, batch := 3 }
    (hsInit 8 { size := 4, batch := 3 }) Relation.ReflTransGen.refl

/-- C5: Once the configuration barrier has resolved (the `done` signal
produced by `config_accelerator` is true at tick `t`), every later call
of the await-configuration operation returns immediately — its wait loop
performs zero iterations (hence polls nothing, in particular it never
re-reads the external `conf_done`, which only `config_accelerator` ever
reads), even with zero fuel — and yields the same configuration value as
at the first resolution, provided the published configuration is stable
while `done` holds. -/
theorem config_gate_idempotent_after_resolution (conf_done : Nat → Bool)
    (conf_info : Nat → conf_info_t) (t t' fuel : Nat)
    (hres : done_trace conf_done t = true) (hle : t ≤ t')
    (hstable : ∀ u v, done_trace conf_done u = true →
      done_trace conf_done v = true → conf_info u = conf_info v) :
    awaitConfiguration (done_trace conf_done) conf_info t' fuel =
      some (0, conf_info t) := by
  have ht' : done_trace conf_done t' = true :=
    done_trace_mono conf_done t t' hle hres
  rw [awaitConfiguration, WAIT_FOR_CONFIG_LOOP_done _ _ _ ht']
  exact congrArg (fun v => some ((0 : Nat), v)) (hstable t' t ht' hres)

/-- Witness for C5: with `conf_done` always submitted and a constant
published configuration, a second call at tick 2 (after resolution at
tick 1) returns immediately with the cached value. -/
theorem config_gate_idempotent_after_resolution_witness :
    awaitConfiguration (done_trace (fun _ => true))
      (fun _ => { size := 4, batch := 3 }) 2 0 =
      some (0, { size := 4, batch := 3 }) :=
  config_gate_idempotent_after_resolution (fun _ => true)
    (fun _ => { size := 4, batch := 3 }) 1 2 0 (by decide) (by decide)
    (fun _ _ _ _ => rfl)
